import Mathlib

/-!
Verification of the polycli trading bot core.

We give a shallow embedding of the candle aggregation, indicator, signal and
shadow position modules of the repository and prove properties about them.
Finite machine floats are modelled as rationals; where a claim involves
non-finite floats, the type `F` below adds NaN and the two infinities with
IEEE comparison semantics.
-/

/-- Model of an f64 value: NaN, the two infinities, or a finite value
modelled as a rational. -/
inductive F where
| nan : F
| inf : F
| ninf : F
| fin : ℚ → F
deriving DecidableEq

def F.isFinite : F → Bool
| F.fin _ => true
| _ => false

def F.isNan : F → Bool
| F.nan => true
| _ => false

def F.isInfinite : F → Bool
| F.inf => true
| F.ninf => true
| _ => false

/-- IEEE `<=` on modelled floats: any comparison with NaN is false. -/
def F.le : F → F → Bool
| F.nan, _ => false
| _, F.nan => false
| F.ninf, _ => true
| _, F.inf => true
| F.inf, _ => false
| F.fin _, F.ninf => false
| F.fin a, F.fin b => decide (a ≤ b)

/-- IEEE `<` on modelled floats: any comparison with NaN is false. -/
def F.lt : F → F → Bool
| F.nan, _ => false
| _, F.nan => false
| F.inf, _ => false
| _, F.inf => true
| F.ninf, F.ninf => false
| F.ninf, F.fin _ => true
| F.fin _, F.ninf => false
| F.fin a, F.fin b => decide (a < b)

/-! ## src/bot/candles.rs -/

/-- One input tick fed to a candle aggregator: price, volume and an epoch
timestamp in seconds. -/
structure Tick where
  price : ℚ
  volume : ℚ
  time : ℕ
deriving DecidableEq

/-- OHLCV candle, `src/bot/candles.rs` struct `Candle`.  The `open` field of
the source is called `opn` since `open` is reserved in Lean. -/
structure Candle where
  start_time : ℕ
  opn : ℚ
  high : ℚ
  low : ℚ
  close : ℚ
  volume : ℚ
deriving DecidableEq

inductive VolumeMode where
| snapshot : VolumeMode
| delta : VolumeMode
deriving DecidableEq

/-- State of `CandleAggregator` (the `debug_logs` flag only drives printing
and is omitted). -/
structure CandleAggregator where
  interval_seconds : ℕ
  current : Option Candle
  buffer : List Candle
  max_len : ℕ
  volume_mode : VolumeMode
  last_snapshot_vol : Option ℚ
deriving DecidableEq

def CandleAggregator.new (interval_seconds max_len : ℕ) (volume_mode : VolumeMode) :
    CandleAggregator :=
  { interval_seconds := interval_seconds
    current := none
    buffer := []
    max_len := max_len
    volume_mode := volume_mode
    last_snapshot_vol := none }

/-- `(epoch_seconds / self.interval_seconds) * self.interval_seconds`. -/
def bucketStart (interval t : ℕ) : ℕ := t / interval * interval

/-- `CandleAggregator::push`: bounded FIFO, evicting the oldest candle when
the buffer is at capacity. -/
def CandleAggregator.push (a : CandleAggregator) (c : Candle) : CandleAggregator :=
  if a.buffer.length = a.max_len then { a with buffer := a.buffer.tail ++ [c] }
  else { a with buffer := a.buffer ++ [c] }

/-- `CandleAggregator::update`.  Note that in `Snapshot` volume mode the
`last_snapshot_vol` baseline is updated before the bucket comparison, exactly
as in the source. -/
def CandleAggregator.update (a : CandleAggregator) (price volume : ℚ) (epoch_seconds : ℕ) :
    CandleAggregator :=
  let bucket_start := bucketStart a.interval_seconds epoch_seconds
  let delta_vol : ℚ :=
    match a.volume_mode with
    | VolumeMode.delta => volume
    | VolumeMode.snapshot => max (volume - a.last_snapshot_vol.getD volume) 0
  let a1 : CandleAggregator :=
    match a.volume_mode with
    | VolumeMode.delta => a
    | VolumeMode.snapshot => { a with last_snapshot_vol := some volume }
  match a.current with
  | some current =>
    if bucket_start = current.start_time then
      { a1 with current := some { current with
          high := max current.high price
          low := min current.low price
          close := price
          volume := current.volume + delta_vol } }
    else if bucket_start < current.start_time then
      a1
    else
      let a2 := a1.push current
      { a2 with current := some ⟨bucket_start, price, price, price, price, delta_vol⟩ }
  | none =>
    { a1 with current := some ⟨bucket_start, price, price, price, price, delta_vol⟩ }

/-- Feed a list of ticks through an aggregator in order. -/
def CandleAggregator.run (a : CandleAggregator) (ticks : List Tick) : CandleAggregator :=
  ticks.foldl (fun s tk => s.update tk.price tk.volume tk.time) a

/-- `is_price_valid` from `src/bot/candles.rs`. -/
def isPriceValid (price spread : F) : Bool :=
  if !price.isFinite then false
  else if F.le price (F.fin (1/100)) then false
  else if F.le (F.fin (99/100)) price && F.lt (F.fin (9/10)) spread then false
  else true

/-- State of `CandleEngine`: three aggregators at 5s, 15s and 60s. -/
structure CandleEngineSt where
  five_second : CandleAggregator
  fifteen_second : CandleAggregator
  one_minute : CandleAggregator
deriving DecidableEq

def CandleEngineSt.new : CandleEngineSt :=
  { five_second := CandleAggregator.new 5 100 VolumeMode.snapshot
    fifteen_second := CandleAggregator.new 15 100 VolumeMode.snapshot
    one_minute := CandleAggregator.new 60 100 VolumeMode.snapshot }

/-- `CandleEngine::update`: validity gate, then fan-out to all three
aggregators; returns `true` exactly when the tick was accepted. -/
def CandleEngineSt.update (e : CandleEngineSt) (price spread : F) (volume : ℚ) (t : ℕ) :
    CandleEngineSt × Bool :=
  if isPriceValid price spread then
    match price with
    | F.fin p =>
      ({ five_second := e.five_second.update p volume t
         fifteen_second := e.fifteen_second.update p volume t
         one_minute := e.one_minute.update p volume t }, true)
    | _ => (e, false)
  else (e, false)

/-! ## src/bot/indicators.rs -/

/-- Snapshot of indicator values, `IndicatorState` in the source. -/
structure IndicatorState where
  ema9 : Option ℚ
  ema21 : Option ℚ
  rsi14 : Option ℚ
  momentum_slope : Option ℚ
deriving DecidableEq

def IndicatorState.default : IndicatorState := ⟨none, none, none, none⟩

/-- Exponential moving average state, struct `Ema`. -/
structure Ema where
  period : ℕ
  multiplier : ℚ
  value : Option ℚ
  warmup_count : ℕ
deriving DecidableEq

def Ema.new (period : ℕ) : Ema :=
  { period := period, multiplier := 2 / ((period : ℚ) + 1), value := none, warmup_count := 0 }

/-- `Ema::update`: steady state seeding on the first close, standard EMA
recurrence afterwards. -/
def Ema.update (e : Ema) (close : ℚ) : Ema :=
  match e.value with
  | some prev => { e with warmup_count := e.warmup_count + 1,
                          value := some ((close - prev) * e.multiplier + prev) }
  | none => { e with warmup_count := e.warmup_count + 1, value := some close }

/-- Wilder RSI state, struct `Rsi`. -/
structure Rsi where
  period : ℕ
  avg_gain : Option ℚ
  avg_loss : Option ℚ
  last_close : Option ℚ
  value : Option ℚ
  warmup_count : ℕ
deriving DecidableEq

def Rsi.new (period : ℕ) : Rsi :=
  { period := period, avg_gain := none, avg_loss := none, last_close := none,
    value := none, warmup_count := 0 }

/-- `Rsi::calc_rsi`. -/
def Rsi.calcRsi (r : Rsi) : Rsi :=
  match r.avg_gain, r.avg_loss with
  | some ag, some al =>
    if ag = 0 ∧ al = 0 then { r with value := some 50 }
    else if al = 0 then { r with value := some 100 }
    else if ag = 0 then { r with value := some 0 }
    else { r with value := some (100 - 100 / (1 + ag / al)) }
  | _, _ => { r with value := some 50 }

/-- The state mutation taking place in `Rsi::update` before the final call
to `calc_rsi`: first update seeds the averages at zero; up to `period`
updates use a growing simple mean, afterwards Wilder smoothing. -/
def Rsi.preCalc (r : Rsi) (close : ℚ) : Rsi :=
  let w := r.warmup_count + 1
  let r := { r with warmup_count := w }
  match r.last_close with
  | none =>
    { r with last_close := some close, avg_gain := some 0, avg_loss := some 0 }
  | some prev_close =>
    let r := { r with last_close := some close }
    let change := close - prev_close
    let gain : ℚ := if change > 0 then change else 0
    let loss : ℚ := if change < 0 then -change else 0
    match r.avg_gain, r.avg_loss with
    | some ag, some al =>
      if w ≤ r.period then
        { r with avg_gain := some ((ag * ((w : ℚ) - 1) + gain) / (w : ℚ)),
                 avg_loss := some ((al * ((w : ℚ) - 1) + loss) / (w : ℚ)) }
      else
        { r with avg_gain := some ((ag * ((r.period : ℚ) - 1) + gain) / (r.period : ℚ)),
                 avg_loss := some ((al * ((r.period : ℚ) - 1) + loss) / (r.period : ℚ)) }
    | _, _ => r

/-- `Rsi::update`: the state mutation followed by `calc_rsi`. -/
def Rsi.update (r : Rsi) (close : ℚ) : Rsi := (r.preCalc close).calcRsi

/-- Sequence of RSI output values for a list of closes. -/
def Rsi.outputs (r : Rsi) : List ℚ → List (Option ℚ)
| [] => []
| c :: cs => (r.update c).value :: (r.update c).outputs cs

/-- Ordinary least squares slope over a bounded window, struct
`MomentumSlope`. -/
structure MomentumSlope where
  window : ℕ
  closes : List ℚ
  value : Option ℚ
deriving DecidableEq

def MomentumSlope.new (window : ℕ) : MomentumSlope :=
  { window := window, closes := [], value := none }

/-- `MomentumSlope::update`. -/
def MomentumSlope.update (m : MomentumSlope) (close : ℚ) : MomentumSlope :=
  let closes := (if m.closes.length = m.window then m.closes.tail else m.closes) ++ [close]
  let n_len := closes.length
  if n_len < 2 then { m with closes := closes, value := none }
  else
    let n : ℚ := (n_len : ℚ)
    let mean_x := (n - 1) / 2
    let var_x := ((List.range n_len).map (fun i => ((i : ℚ) - mean_x) * ((i : ℚ) - mean_x))).sum
    if var_x = 0 then { m with closes := closes, value := some 0 }
    else
      let mean_y := closes.sum / n
      let cov_xy := (closes.enum.map (fun p => ((p.1 : ℚ) - mean_x) * (p.2 - mean_y))).sum
      { m with closes := closes, value := some (cov_xy / var_x) }

/-- The fields of a closed candle consumed by `IndicatorEngine::update`:
start time and close price.  The close is a full float so that NaN and
infinite closes can be discussed. -/
structure IndCandle where
  start_time : ℕ
  close : F
deriving DecidableEq

/-- State of `IndicatorEngine` (the `debug_logs` flag is omitted). -/
structure IndicatorEngine where
  ema9 : Ema
  ema21 : Ema
  rsi14 : Rsi
  slope : MomentumSlope
  last_candle_time : Option ℕ
  prev_ema9 : Option ℚ
  prev_ema21 : Option ℚ
deriving DecidableEq

def IndicatorEngine.new : IndicatorEngine :=
  { ema9 := Ema.new 9, ema21 := Ema.new 21, rsi14 := Rsi.new 14,
    slope := MomentumSlope.new 14, last_candle_time := none,
    prev_ema9 := none, prev_ema21 := none }

/-- `IndicatorEngine::reset` reinitializes every field, identical to `new`. -/
def IndicatorEngine.reset (_e : IndicatorEngine) : IndicatorEngine := IndicatorEngine.new

def IndicatorEngine.getState (e : IndicatorEngine) : IndicatorState :=
  ⟨e.ema9.value, e.ema21.value, e.rsi14.value, e.slope.value⟩

/-- Finiteness of a stored indicator value; every rational is finite. -/
def finiteQ (_q : ℚ) : Bool := true

/-- `IndicatorEngine::has_invalid_state`. -/
def IndicatorEngine.hasInvalidState (e : IndicatorEngine) : Bool :=
  let check : Option ℚ → Bool := fun v =>
    match v with
    | some f => !(finiteQ f)
    | none => false
  check e.ema9.value || check e.ema21.value || check e.rsi14.value || check e.slope.value

/-- Body of `IndicatorEngine::update` after the stale and gap checks: record
the candle time, drop invalid closes, otherwise update every sub-indicator
and reset on a non-finite result. -/
def IndicatorEngine.updateCore (e : IndicatorEngine) (candle : IndCandle) :
    IndicatorEngine × IndicatorState :=
  let e := { e with last_candle_time := some candle.start_time }
  if candle.close.isNan || candle.close.isInfinite || F.le candle.close (F.fin (1/10000)) then
    (e, e.getState)
  else
    match candle.close with
    | F.fin c =>
      let e := { e with prev_ema9 := e.ema9.value, prev_ema21 := e.ema21.value }
      let e := { e with ema9 := e.ema9.update c, ema21 := e.ema21.update c,
                        rsi14 := e.rsi14.update c, slope := e.slope.update c }
      let e := if e.hasInvalidState then e.reset else e
      (e, e.getState)
    | _ => (e, e.getState)

/-- `IndicatorEngine::update`. -/
def IndicatorEngine.update (e : IndicatorEngine) (candle : IndCandle) :
    IndicatorEngine × IndicatorState :=
  match e.last_candle_time with
  | some last_time =>
    if candle.start_time ≤ last_time then (e, e.getState)
    else
      let e1 := if candle.start_time - last_time > 120 then e.reset else e
      e1.updateCore candle
  | none => e.updateCore candle

/-! ## src/bot/signal.rs -/

inductive Bias where
| long : Bias
| short : Bias
| neutral : Bias
deriving DecidableEq

inductive EntrySignal where
| long : EntrySignal
| short : EntrySignal
| none : EntrySignal
deriving DecidableEq

inductive ExitSignal where
| scaleOut25 : ExitSignal
| scaleOut50 : ExitSignal
| fullExit : ExitSignal
| stopLoss : ExitSignal
| none : ExitSignal
deriving DecidableEq

structure SignalState where
  bias : Bias
  acceleration : Bool
  entry : EntrySignal
  exit : ExitSignal
deriving DecidableEq

/-- Exact rational value of `f64::MAX`. -/
def f64Max : ℚ := 2 ^ 1024 - 2 ^ 971

/-- Exact rational value of `f64::MIN`. -/
def f64Min : ℚ := -f64Max

/-- State of `SignalEngine`. -/
structure SignalEngine where
  previous_bias : Bias
  active_position : Option Bias
  entry_price : Option ℚ
  scale_stage : ℕ
  last_5s_high : ℚ
  last_5s_low : ℚ
  recent_5s_closes : List ℚ
deriving DecidableEq

def SignalEngine.new : SignalEngine :=
  { previous_bias := Bias.neutral, active_position := none, entry_price := none,
    scale_stage := 0, last_5s_high := f64Min, last_5s_low := f64Max,
    recent_5s_closes := [] }

/-- `SignalEngine::determine_bias`. -/
def determineBias (one_min : IndicatorState) : Bias :=
  match one_min.ema9, one_min.ema21, one_min.rsi14, one_min.momentum_slope with
  | some ema9, some ema21, some rsi, some slope =>
    if ema9 > ema21 ∧ rsi > 55 ∧ slope > 0 then Bias.long
    else if ema9 < ema21 ∧ rsi < 45 ∧ slope < 0 then Bias.short
    else Bias.neutral
  | _, _, _, _ => Bias.neutral

/-- `SignalEngine::check_acceleration`. -/
def checkAcceleration (bias : Bias) (fifteen_sec : IndicatorState) : Bool :=
  if bias = Bias.neutral then false
  else
    match fifteen_sec.ema9, fifteen_sec.ema21, fifteen_sec.rsi14,
        fifteen_sec.momentum_slope with
    | some ema9, some ema21, some rsi, some slope =>
      match bias with
      | Bias.long => decide (slope > 0 ∧ rsi > 60 ∧ ema9 > ema21)
      | Bias.short => decide (slope < 0 ∧ rsi < 40 ∧ ema9 < ema21)
      | Bias.neutral => false
    | _, _, _, _ => false

/-- `SignalEngine::check_entry`: requires no active position, acceleration,
a non-neutral bias, at least 3 recorded recent closes, a fast slope beyond
the 0.001 threshold and a breakout beyond the recorded window extreme. -/
def SignalEngine.check_entry (e : SignalEngine) (bias : Bias) (acceleration : Bool)
    (five_sec : IndicatorState) (current_price : ℚ) : EntrySignal :=
  if e.active_position.isSome ∨ acceleration = false ∨ bias = Bias.neutral ∨
      e.recent_5s_closes.length < 3 then
    EntrySignal.none
  else
    match five_sec.momentum_slope with
    | some slope =>
      match bias with
      | Bias.long =>
        if slope > 1/1000 ∧ current_price > e.last_5s_high then EntrySignal.long
        else EntrySignal.none
      | Bias.short =>
        if slope < -(1/1000) ∧ current_price < e.last_5s_low then EntrySignal.short
        else EntrySignal.none
      | Bias.neutral => EntrySignal.none
    | none => EntrySignal.none

/-- `SignalEngine::check_exit` with the 1e-9 tolerances of the source. -/
def SignalEngine.check_exit (e : SignalEngine) (current_price : ℚ)
    (one_min : IndicatorState) : ExitSignal :=
  match e.active_position, e.entry_price with
  | some position, some entry =>
    let pct_change := (current_price - entry) / entry
    let eps : ℚ := 1/1000000000
    let slopeFlip : Option ExitSignal :=
      match one_min.momentum_slope with
      | some slope =>
        if position = Bias.long ∧ slope < 0 then some ExitSignal.fullExit
        else if position = Bias.short ∧ slope > 0 then some ExitSignal.fullExit
        else none
      | none => none
    match slopeFlip with
    | some sig => sig
    | none =>
      match position with
      | Bias.long =>
        if pct_change ≤ -(1/10) + eps then ExitSignal.stopLoss
        else if current_price ≥ 94/100 then ExitSignal.fullExit
        else if pct_change ≥ 4/10 - eps ∧ e.scale_stage < 2 then ExitSignal.scaleOut50
        else if pct_change ≥ 2/10 - eps ∧ e.scale_stage < 1 then ExitSignal.scaleOut25
        else ExitSignal.none
      | Bias.short =>
        if pct_change ≥ 1/10 - eps then ExitSignal.stopLoss
        else if current_price ≤ 6/100 then ExitSignal.fullExit
        else if pct_change ≤ -(4/10) + eps ∧ e.scale_stage < 2 then ExitSignal.scaleOut50
        else if pct_change ≤ -(2/10) + eps ∧ e.scale_stage < 1 then ExitSignal.scaleOut25
        else ExitSignal.none
      | Bias.neutral => ExitSignal.none
  | _, _ => ExitSignal.none

/-- `SignalEngine::update`: bias, acceleration, breakout window computed
before the current price is inserted, entry, window push, exit, and the
internal position bookkeeping. -/
def SignalEngine.update (e : SignalEngine) (one_min fifteen_sec five_sec : IndicatorState)
    (current_price : ℚ) : SignalEngine × SignalState :=
  let bias := determineBias one_min
  let e := { e with previous_bias := bias }
  let acceleration := checkAcceleration bias fifteen_sec
  let e := { e with last_5s_high := e.recent_5s_closes.foldl max f64Min,
                    last_5s_low := e.recent_5s_closes.foldl min f64Max }
  let entry := e.check_entry bias acceleration five_sec current_price
  let e := { e with recent_5s_closes :=
    (if e.recent_5s_closes.length = 3 then e.recent_5s_closes.tail
     else e.recent_5s_closes) ++ [current_price] }
  let exit := e.check_exit current_price one_min
  let e :=
    match exit with
    | ExitSignal.fullExit =>
      { e with active_position := none, entry_price := none, scale_stage := 0 }
    | ExitSignal.stopLoss =>
      { e with active_position := none, entry_price := none, scale_stage := 0 }
    | ExitSignal.scaleOut25 => { e with scale_stage := 1 }
    | ExitSignal.scaleOut50 => { e with scale_stage := 2 }
    | ExitSignal.none => e
  let e :=
    if entry ≠ EntrySignal.none ∧ e.active_position = none then
      { e with
        active_position :=
          match entry with
          | EntrySignal.long => some Bias.long
          | EntrySignal.short => some Bias.short
          | EntrySignal.none => none
        entry_price := some current_price
        scale_stage := 0 }
    else e
  (e, ⟨bias, acceleration, entry, exit⟩)

/-! ## src/commands/bot.rs -/

inductive TokenSide where
| yes : TokenSide
| no : TokenSide
deriving DecidableEq

/-- Order book view of one token, struct `MarketSnapshot`; decimal prices
are modelled as rationals. -/
structure MarketSnapshot where
  midpoint : Option ℚ
  best_bid : Option ℚ
  best_ask : Option ℚ
  spread : Option ℚ
  top5_bid_depth : ℚ
  top5_ask_depth : ℚ
deriving DecidableEq

structure DualSnapshot where
  yes : MarketSnapshot
  no : MarketSnapshot
deriving DecidableEq

/-- The exit alternatives `handle_shadow_signals` distinguishes: a full exit
or no exit. -/
inductive BotExitSignal where
| fullExit : BotExitSignal
| noExit : BotExitSignal
deriving DecidableEq

/-- Simulated position and bankroll ledger, struct `ShadowPosition`. -/
structure ShadowPosition where
  active_entry : Option EntrySignal
  token_side : Option TokenSide
  entry_price : ℚ
  size : ℚ
  realized_pnl : ℚ
  position_realized_pnl : ℚ
  last_exit_timestamp : ℕ
  entry_timestamp : ℕ
  position_size_usd : ℚ
  bankroll_usd : ℚ
  realized_usd : ℚ
  position_realized_usd : ℚ
  yes_blocked : Bool
  no_blocked : Bool
deriving DecidableEq

def ShadowPosition.default : ShadowPosition :=
  { active_entry := none, token_side := none, entry_price := 0, size := 0,
    realized_pnl := 0, position_realized_pnl := 0, last_exit_timestamp := 0,
    entry_timestamp := 0, position_size_usd := 0, bankroll_usd := 4,
    realized_usd := 0, position_realized_usd := 0,
    yes_blocked := false, no_blocked := false }

def ShadowPosition.is_active (s : ShadowPosition) : Bool := s.token_side.isSome

/-- `ShadowPosition::reset`: locks the direction after a losing trade and
clears the per-trade state; bankroll and session totals persist. -/
def ShadowPosition.reset (s : ShadowPosition) (timestamp : ℕ) : ShadowPosition :=
  let s :=
    if s.position_realized_pnl < 0 then
      match s.token_side with
      | some TokenSide.yes => { s with yes_blocked := true }
      | some TokenSide.no => { s with no_blocked := true }
      | none => s
    else s
  { s with active_entry := none, token_side := none, entry_price := 0, size := 0,
           position_realized_pnl := 0, last_exit_timestamp := timestamp,
           position_size_usd := 0, position_realized_usd := 0 }

/-- `ShadowPosition::full_reset`: rollover reset; bankroll and session
realized totals carry over, directional locks are cleared. -/
def ShadowPosition.full_reset (s : ShadowPosition) : ShadowPosition :=
  { s with active_entry := none, token_side := none, entry_price := 0, size := 0,
           position_realized_pnl := 0, last_exit_timestamp := 0, entry_timestamp := 0,
           position_size_usd := 0, position_realized_usd := 0,
           yes_blocked := false, no_blocked := false }

/-- `ShadowPosition::pnl`. -/
def ShadowPosition.pnl (s : ShadowPosition) (current_price : ℚ) : ℚ :=
  if s.is_active = false ∨ s.entry_price < 1/10000 then 0
  else (current_price - s.entry_price) / s.entry_price

def best_ask_price (snapshot : MarketSnapshot) : Option ℚ := snapshot.best_ask

def best_bid_price (snapshot : MarketSnapshot) : Option ℚ := snapshot.best_bid

/-- The rollover settlement block of `watch_btc_market`: when the market
ends with an open shadow position, settle it at 1 when the held side has a
last bid above one half and at 0 otherwise, then credit the bankroll with
the stake plus the settlement profit or loss. -/
def settleOnRollover (shadow : ShadowPosition) (last_yes_bid last_no_bid : ℚ) :
    ShadowPosition :=
  if shadow.is_active then
    let price : ℚ :=
      match shadow.token_side with
      | some TokenSide.yes => last_yes_bid
      | some TokenSide.no => last_no_bid
      | none => shadow.entry_price
    let settlement_price : ℚ := if price > 1/2 then 1 else 0
    let final_pnl := shadow.pnl settlement_price
    let dollar_pnl := final_pnl * shadow.position_size_usd
    { shadow with
      realized_pnl := shadow.realized_pnl + final_pnl * shadow.size
      position_realized_pnl := shadow.position_realized_pnl + final_pnl * shadow.size
      bankroll_usd := shadow.bankroll_usd + shadow.position_size_usd + dollar_pnl
      realized_usd := shadow.realized_usd + dollar_pnl
      position_realized_usd := shadow.position_realized_usd + dollar_pnl }
  else shadow

/-- `handle_shadow_signals`: entry gating (time window, cooldown,
directional locks, bankroll floor), simulated fill at the ask of the chosen
side, and full exit at the bid of the held side. -/
def handleShadowSignals (entry : EntrySignal) (exit : BotExitSignal)
    (snap : DualSnapshot) (shadow : ShadowPosition) (time_remaining : ℤ)
    (timestamp : ℕ) : ShadowPosition :=
  if entry ≠ EntrySignal.none ∧ shadow.is_active = false then
    if time_remaining < 30 ∨ time_remaining > 280 then shadow
    else if timestamp - shadow.last_exit_timestamp < 15 then shadow
    else if entry = EntrySignal.long ∧ shadow.yes_blocked = true then shadow
    else if entry = EntrySignal.short ∧ shadow.no_blocked = true then shadow
    else if shadow.bankroll_usd < 1 then shadow
    else
      let token_side : Option TokenSide :=
        match entry with
        | EntrySignal.long => some TokenSide.yes
        | EntrySignal.short => some TokenSide.no
        | EntrySignal.none => none
      let shadow1 := { shadow with token_side := token_side }
      let entry_price : Option ℚ :=
        match token_side with
        | some TokenSide.yes => best_ask_price snap.yes
        | some TokenSide.no => best_ask_price snap.no
        | none => none
      match entry_price with
      | some price =>
        if price > 1/10000 then
          { shadow1 with
            active_entry := some entry
            entry_price := price
            size := 1
            position_realized_pnl := 0
            entry_timestamp := timestamp
            position_size_usd := 1
            bankroll_usd := shadow1.bankroll_usd - 1
            position_realized_usd := 0 }
        else shadow1
      | none => shadow1
  else
    match exit with
    | BotExitSignal.fullExit =>
      if shadow.is_active = true then
        let exit_price : Option ℚ :=
          match shadow.token_side with
          | some TokenSide.yes => best_bid_price snap.yes
          | some TokenSide.no => best_bid_price snap.no
          | none => none
        match exit_price with
        | some price =>
          if price > 1/10000 then
            let pnl := shadow.pnl price
            let shadow2 := { shadow with
              realized_pnl := shadow.realized_pnl + pnl * shadow.size
              position_realized_pnl := shadow.position_realized_pnl + pnl * shadow.size
              bankroll_usd := shadow.bankroll_usd + shadow.position_size_usd
                + pnl * shadow.position_size_usd
              realized_usd := shadow.realized_usd + pnl * shadow.position_size_usd
              position_realized_usd := shadow.position_realized_usd
                + pnl * shadow.position_size_usd }
            shadow2.reset timestamp
          else shadow
        | none => shadow
      else shadow
    | BotExitSignal.noExit => shadow

inductive FilterReason where
| noLiquidity : FilterReason
| wideSpread : FilterReason
| extremePrice : FilterReason
| brokenBook : FilterReason
| time : FilterReason
deriving DecidableEq

/-- `trade_allowed`: the entry filter layer. -/
def trade_allowed (snapshot : MarketSnapshot) (time_remaining contract_age : ℤ)
    (yes_ask no_ask : ℚ) : Except FilterReason Unit :=
  match snapshot.best_bid, snapshot.best_ask with
  | some bid, some ask =>
    if ask - bid > max (ask * (1/10)) (3/100) then Except.error FilterReason.wideSpread
    else if ask > 65/100 ∨ ask < 35/100 then Except.error FilterReason.extremePrice
    else if |yes_ask + no_ask - 1| > 1/10 then Except.error FilterReason.brokenBook
    else if time_remaining < 30 ∨ contract_age < 15 then Except.error FilterReason.time
    else Except.ok ()
  | _, _ => Except.error FilterReason.noLiquidity

/-! ## Candle aggregator invariants (claims C1 and C3) -/

/-- OHLC ordering invariant of a candle. -/
def candleOk (c : Candle) : Prop :=
  c.low ≤ c.opn ∧ c.opn ≤ c.high ∧ c.low ≤ c.close ∧ c.close ≤ c.high

/-- Price of the first tick of the list whose bucket is `b`. -/
def firstPriceInBucket (interval : ℕ) (ticks : List Tick) (b : ℕ) : Option ℚ :=
  (ticks.find? fun tk => bucketStart interval tk.time == b).map Tick.price

/-- A candle is well formed and its open price is the first price observed
in its bucket. -/
def candleTraced (interval : ℕ) (ticks : List Tick) (c : Candle) : Prop :=
  candleOk c ∧ firstPriceInBucket interval ticks c.start_time = some c.opn


theorem firstPriceInBucket_append_of_some {interval : ℕ} {ticks : List Tick} {b : ℕ}
    {q : ℚ} (tk : Tick) (h : firstPriceInBucket interval ticks b = some q) :
    firstPriceInBucket interval (ticks ++ [tk]) b = some q := by
  unfold firstPriceInBucket at h ⊢
  rcases hf : ticks.find? (fun t => bucketStart interval t.time == b) with _ | x
  · rw [hf] at h; simp at h
  · rw [hf] at h
    rw [List.find?_append, hf]
    simpa using h

theorem firstPriceInBucket_append_new {interval : ℕ} {ticks : List Tick} (tk : Tick)
    (h : ∀ t ∈ ticks, bucketStart interval t.time ≠ bucketStart interval tk.time) :
    firstPriceInBucket interval (ticks ++ [tk]) (bucketStart interval tk.time) =
      some tk.price := by
  unfold firstPriceInBucket
  rw [List.find?_append]
  have h1 : ticks.find?
      (fun t => bucketStart interval t.time == bucketStart interval tk.time) = none := by
    rw [List.find?_eq_none]
    intro x hx
    simpa using h x hx
  rw [h1]
  simp

theorem candleTraced_append {interval : ℕ} {ticks : List Tick} {c : Candle} (tk : Tick)
    (h : candleTraced interval ticks c) : candleTraced interval (ticks ++ [tk]) c :=
  ⟨h.1, firstPriceInBucket_append_of_some tk h.2⟩

theorem mem_push_buffer {a : CandleAggregator} {cur c : Candle}
    (h : c ∈ (a.push cur).buffer) : c ∈ a.buffer ∨ c = cur := by
  unfold CandleAggregator.push at h
  split_ifs at h
  · rcases List.mem_append.mp h with h' | h'
    · exact Or.inl (List.mem_of_mem_tail h')
    · simp at h'; exact Or.inr h'
  · rcases List.mem_append.mp h with h' | h'
    · exact Or.inl h'
    · simp at h'; exact Or.inr h'

theorem push_interval (a : CandleAggregator) (c : Candle) :
    (a.push c).interval_seconds = a.interval_seconds := by
  unfold CandleAggregator.push
  split_ifs <;> rfl

/-- Inductive invariant of a candle aggregator relative to the tick history
it has consumed. -/
def aggStateOk (interval : ℕ) (ticks : List Tick) (a : CandleAggregator) : Prop :=
  a.interval_seconds = interval ∧
  (∀ c, a.current = some c → candleTraced interval ticks c) ∧
  (∀ c ∈ a.buffer, candleTraced interval ticks c) ∧
  (∀ c, a.current = some c → ∀ tk ∈ ticks, bucketStart interval tk.time ≤ c.start_time) ∧
  (a.current = none → ticks = [])

/-- The candle handling logic of `CandleAggregator::update`, factored over
the post volume bookkeeping state `a1`, preserves the invariant. -/
theorem aggStateOk_core {interval : ℕ} {ticks : List Tick} {a : CandleAggregator}
    (tk : Tick) (dv : ℚ) (a1 : CandleAggregator)
    (hcurr : a1.current = a.current) (hbuff : a1.buffer = a.buffer)
    (hint : a1.interval_seconds = a.interval_seconds)
    (h : aggStateOk interval ticks a) :
    aggStateOk interval (ticks ++ [tk])
      (match a.current with
       | some current =>
         if bucketStart a.interval_seconds tk.time = current.start_time then
           { a1 with current := some { current with
               high := max current.high tk.price, low := min current.low tk.price,
               close := tk.price, volume := current.volume + dv } }
         else if bucketStart a.interval_seconds tk.time < current.start_time then a1
         else
           { a1.push current with
               current := some (⟨bucketStart a.interval_seconds tk.time, tk.price, tk.price, tk.price, tk.price, dv⟩ : Candle) }
       | none =>
         { a1 with
             current := some (⟨bucketStart a.interval_seconds tk.time, tk.price, tk.price, tk.price, tk.price, dv⟩ : Candle) }) := by
  obtain ⟨hia, hcur, hbuf, hhi, hnone⟩ := h
  have hia1 : a1.interval_seconds = interval := by rw [hint, hia]
  rcases hc : a.current with _ | cur
  · -- no open candle: the tick history must be empty and a fresh candle opens
    have hticks : ticks = [] := hnone hc
    subst hticks
    refine ⟨hia1, ?_, ?_, ?_, ?_⟩
    · intro c hc'
      injection hc' with hc''
      subst hc''
      refine ⟨⟨le_refl _, le_refl _, le_refl _, le_refl _⟩, ?_⟩
      have := @firstPriceInBucket_append_new interval [] tk (by simp)
      rw [hia]
      simpa using this
    · intro c hcmem
      rw [hbuff] at hcmem
      exact candleTraced_append tk (hbuf c hcmem)
    · intro c hc' t ht
      injection hc' with hc''
      subst hc''
      simp only [List.nil_append, List.mem_singleton] at ht
      subst ht
      simp [hia]
    · intro habs
      simp at habs
  · -- an open candle exists
    by_cases hb1 : bucketStart a.interval_seconds tk.time = cur.start_time
    · -- same bucket: update in place
      simp only [hb1, if_pos rfl, if_true]
      obtain ⟨⟨h1, h2, h3, h4⟩, h5⟩ := hcur cur hc
      refine ⟨hia1, ?_, ?_, ?_, ?_⟩
      · intro c hc'
        injection hc' with hc''
        subst hc''
        refine ⟨⟨?_, ?_, ?_, ?_⟩, ?_⟩
        · exact le_trans (min_le_left _ _) h1
        · exact le_trans h2 (le_max_left _ _)
        · exact min_le_right _ _
        · exact le_max_right _ _
        · exact firstPriceInBucket_append_of_some tk h5
      · intro c hcmem
        rw [hbuff] at hcmem
        exact candleTraced_append tk (hbuf c hcmem)
      · intro c hc' t ht
        injection hc' with hc''
        subst hc''
        rcases List.mem_append.mp ht with ht | ht
        · exact hhi cur hc t ht
        · simp only [List.mem_singleton] at ht
          subst ht
          have : bucketStart interval t.time = cur.start_time := by rw [← hia]; exact hb1
          exact le_of_eq this
      · intro habs
        simp at habs
    · by_cases hb2 : bucketStart a.interval_seconds tk.time < cur.start_time
      · -- late tick: candle state unchanged
        simp only [if_neg hb1, if_pos hb2]
        refine ⟨hia1, ?_, ?_, ?_, ?_⟩
        · intro c hc'
          rw [hcurr, hc] at hc'
          injection hc' with hc''
          rw [← hc'']
          exact candleTraced_append tk (hcur cur hc)
        · intro c hcmem
          rw [hbuff] at hcmem
          exact candleTraced_append tk (hbuf c hcmem)
        · intro c hc' t ht
          rw [hcurr, hc] at hc'
          injection hc' with hc''
          rw [← hc'']
          rcases List.mem_append.mp ht with ht | ht
          · exact hhi cur hc t ht
          · simp only [List.mem_singleton] at ht
            subst ht
            rw [← hia]
            exact le_of_lt hb2
        · intro habs
          rw [hcurr, hc] at habs
          simp at habs
      · -- newer bucket: close the open candle, start a new one
        have hb3 : cur.start_time < bucketStart a.interval_seconds tk.time := by omega
        simp only [if_neg hb1, if_neg hb2]
        have hne : ∀ t ∈ ticks,
            bucketStart interval t.time ≠ bucketStart interval tk.time := by
          intro t ht
          have hle := hhi cur hc t ht
          have hlt : cur.start_time < bucketStart interval tk.time := by
            rw [← hia]; exact hb3
          omega
        refine ⟨?_, ?_, ?_, ?_, ?_⟩
        · show (a1.push cur).interval_seconds = interval
          rw [push_interval, hia1]
        · intro c hc'
          injection hc' with hc''
          subst hc''
          refine ⟨⟨le_refl _, le_refl _, le_refl _, le_refl _⟩, ?_⟩
          have := @firstPriceInBucket_append_new interval ticks tk hne
          rw [hia]
          simpa using this
        · intro c hcmem
          rcases mem_push_buffer hcmem with hmem | hmem
          · rw [hbuff] at hmem
            exact candleTraced_append tk (hbuf c hmem)
          · rw [hmem]
            exact candleTraced_append tk (hcur cur hc)
        · intro c hc' t ht
          injection hc' with hc''
          subst hc''
          have h7 : bucketStart interval tk.time = bucketStart a.interval_seconds tk.time := by
            rw [hia]
          rcases List.mem_append.mp ht with ht | ht
          · have hle := hhi cur hc t ht
            have hlt : cur.start_time < bucketStart interval tk.time := by
              rw [← hia]; exact hb3
            have h6 : bucketStart interval t.time ≤ bucketStart interval tk.time := by omega
            exact le_trans h6 (le_of_eq h7)
          · simp only [List.mem_singleton] at ht
            subst ht
            exact le_of_eq h7
        · intro habs
          simp at habs

/-- One `update` step preserves the aggregator invariant. -/
theorem aggStateOk_update {interval : ℕ} {ticks : List Tick} {a : CandleAggregator}
    (h : aggStateOk interval ticks a) (tk : Tick) :
    aggStateOk interval (ticks ++ [tk]) (a.update tk.price tk.volume tk.time) := by
  rcases hm : a.volume_mode with _ | _
  · -- snapshot mode
    have hcore := aggStateOk_core tk (max (tk.volume - a.last_snapshot_vol.getD tk.volume) 0)
      ({ a with last_snapshot_vol := some tk.volume }) rfl rfl rfl h
    have heq : a.update tk.price tk.volume tk.time =
      (match a.current with
       | some current =>
         if bucketStart a.interval_seconds tk.time = current.start_time then
           { ({ a with last_snapshot_vol := some tk.volume } : CandleAggregator) with
               current := some { current with
                 high := max current.high tk.price, low := min current.low tk.price,
                 close := tk.price,
                 volume := current.volume + max (tk.volume - a.last_snapshot_vol.getD tk.volume) 0 } }
         else if bucketStart a.interval_seconds tk.time < current.start_time then
           ({ a with last_snapshot_vol := some tk.volume } : CandleAggregator)
         else
           { ({ a with last_snapshot_vol := some tk.volume } : CandleAggregator).push current with
               current := some (⟨bucketStart a.interval_seconds tk.time, tk.price, tk.price, tk.price, tk.price, max (tk.volume - a.last_snapshot_vol.getD tk.volume) 0⟩ : Candle) }
       | none =>
         { ({ a with last_snapshot_vol := some tk.volume } : CandleAggregator) with
             current := some (⟨bucketStart a.interval_seconds tk.time, tk.price, tk.price, tk.price, tk.price, max (tk.volume - a.last_snapshot_vol.getD tk.volume) 0⟩ : Candle) }) := by
      simp only [CandleAggregator.update, hm]
    rw [heq]
    exact hcore
  · -- delta mode
    have hcore := aggStateOk_core tk tk.volume a rfl rfl rfl h
    have heq : a.update tk.price tk.volume tk.time =
      (match a.current with
       | some current =>
         if bucketStart a.interval_seconds tk.time = current.start_time then
           { a with current := some { current with
               high := max current.high tk.price, low := min current.low tk.price,
               close := tk.price, volume := current.volume + tk.volume } }
         else if bucketStart a.interval_seconds tk.time < current.start_time then a
         else
           { a.push current with
               current := some (⟨bucketStart a.interval_seconds tk.time, tk.price, tk.price, tk.price, tk.price, tk.volume⟩ : Candle) }
       | none =>
         { a with
             current := some (⟨bucketStart a.interval_seconds tk.time, tk.price, tk.price, tk.price, tk.price, tk.volume⟩ : Candle) }) := by
      simp only [CandleAggregator.update, hm]
    rw [heq]
    exact hcore

/-- Running more ticks preserves the invariant. -/
theorem aggStateOk_run : ∀ (rest done : List Tick) (a : CandleAggregator),
    aggStateOk interval done a → aggStateOk interval (done ++ rest) (a.run rest)
  | [], done, a, h => by simpa [CandleAggregator.run] using h
  | tk :: rest, done, a, h => by
    have h1 := aggStateOk_update h tk
    have h2 := aggStateOk_run rest (done ++ [tk]) (a.update tk.price tk.volume tk.time) h1
    have heq : a.run (tk :: rest) = (a.update tk.price tk.volume tk.time).run rest := rfl
    rw [heq]
    simpa [List.append_assoc] using h2

theorem aggStateOk_new (interval max_len : ℕ) (mode : VolumeMode) :
    aggStateOk interval [] (CandleAggregator.new interval max_len mode) := by
  refine ⟨rfl, ?_, ?_, ?_, ?_⟩
  · intro c hc
    simp [CandleAggregator.new] at hc
  · intro c hc
    simp [CandleAggregator.new] at hc
  · intro c hc
    simp [CandleAggregator.new] at hc
  · intro _
    rfl

/-- Claim C1: for every sequence of ticks fed to a `CandleAggregator`, every
candle it holds or emits (the open candle and every closed candle in the
buffer) satisfies `low ≤ open ≤ high` and `low ≤ close ≤ high`, and its open
equals the first price observed in that bucket. -/
theorem candle_aggregator_ohlc_open_invariant (interval max_len : ℕ) (mode : VolumeMode)
    (ticks : List Tick) (c : Candle)
    (hc : ((CandleAggregator.new interval max_len mode).run ticks).current = some c ∨
          c ∈ ((CandleAggregator.new interval max_len mode).run ticks).buffer) :
    (c.low ≤ c.opn ∧ c.opn ≤ c.high ∧ c.low ≤ c.close ∧ c.close ≤ c.high) ∧
    firstPriceInBucket interval ticks c.start_time = some c.opn := by
  have h := aggStateOk_run ticks [] _ (aggStateOk_new interval max_len mode)
  simp only [List.nil_append] at h
  rcases hc with hc | hc
  · exact h.2.1 c hc
  · exact h.2.2.1 c hc

/-- Witness for claim C1: the five tick scenario of the spec followed by a
bucket roll, checked on the closed 5 second candle. -/
theorem candle_aggregator_ohlc_open_invariant_witness :
    (let ticks : List Tick := [⟨100, 1, 100000⟩, ⟨101, 1, 100001⟩, ⟨102, 1, 100002⟩,
      ⟨103, 1, 100003⟩, ⟨104, 1, 100004⟩, ⟨200, 2, 100005⟩]
     let c : Candle := ⟨100000, 100, 104, 100, 104, 0⟩
     (c.low ≤ c.opn ∧ c.opn ≤ c.high ∧ c.low ≤ c.close ∧ c.close ≤ c.high) ∧
       firstPriceInBucket 5 ticks c.start_time = some c.opn) := by
  exact candle_aggregator_ohlc_open_invariant 5 100 VolumeMode.snapshot _ _
    (Or.inr (by norm_num [CandleAggregator.run, CandleAggregator.update,
      CandleAggregator.new, CandleAggregator.push, bucketStart]))

/-! ## Claim C2: the validity gate of CandleEngine -/

theorem isPriceValid_false_iff (price spread : F) :
    isPriceValid price spread = false ↔
      (price.isFinite = false ∨ F.le price (F.fin (1/100)) = true ∨
        (F.le (F.fin (99/100)) price = true ∧ F.lt (F.fin (9/10)) spread = true)) := by
  unfold isPriceValid
  cases h1 : price.isFinite <;> cases h2 : F.le price (F.fin (1/100)) <;>
    cases h3 : F.le (F.fin (99/100)) price <;> cases h4 : F.lt (F.fin (9/10)) spread <;>
      simp [h1, h2, h3, h4]

theorem isPriceValid_fin {price spread : F} (h : isPriceValid price spread = true) :
    ∃ p : ℚ, price = F.fin p := by
  cases price <;> simp_all [isPriceValid, F.isFinite]

/-- Claim C2: `CandleEngine::update` rejects a tick, forwarding it to none
of the three aggregators, exactly when the price is non-finite, at most
0.01, or at least 0.99 with spread above 0.9; otherwise it forwards the
tick to all three aggregators and signals acceptance. -/
theorem candle_engine_validity_gate (e : CandleEngineSt) (price spread : F) (volume : ℚ)
    (t : ℕ) :
    ((e.update price spread volume t).2 = false ↔
      (price.isFinite = false ∨ F.le price (F.fin (1/100)) = true ∨
        (F.le (F.fin (99/100)) price = true ∧ F.lt (F.fin (9/10)) spread = true))) ∧
    ((e.update price spread volume t).2 = false → (e.update price spread volume t).1 = e) ∧
    (∀ p : ℚ, price = F.fin p → (e.update price spread volume t).2 = true →
      (e.update price spread volume t).1.five_second = e.five_second.update p volume t ∧
      (e.update price spread volume t).1.fifteen_second = e.fifteen_second.update p volume t ∧
      (e.update price spread volume t).1.one_minute = e.one_minute.update p volume t) ∧
    ((e.update price spread volume t).2 = true → ∃ p : ℚ, price = F.fin p) := by
  refine ⟨?_, ?_, ?_, ?_⟩
  · rw [← isPriceValid_false_iff]
    unfold CandleEngineSt.update
    cases hv : isPriceValid price spread
    · simp
    · rcases isPriceValid_fin hv with ⟨p, hp⟩
      subst hp
      simp
  · intro hfalse
    unfold CandleEngineSt.update at hfalse ⊢
    cases hv : isPriceValid price spread
    · simp
    · rcases isPriceValid_fin hv with ⟨p, hp⟩
      subst hp
      rw [hv] at hfalse
      simp at hfalse
  · intro p hp htrue
    subst hp
    unfold CandleEngineSt.update at htrue ⊢
    cases hv : isPriceValid (F.fin p) spread
    · rw [hv] at htrue
      simp at htrue
    · simp [hv]
  · intro htrue
    unfold CandleEngineSt.update at htrue
    cases hv : isPriceValid price spread
    · rw [hv] at htrue
      simp at htrue
    · exact isPriceValid_fin hv

/-- Witness for claim C2: a NaN price is rejected without touching the
engine, and the valid price one half is accepted. -/
theorem candle_engine_validity_gate_witness :
    (CandleEngineSt.new.update F.nan (F.fin (1/10)) 1 100000).2 = false ∧
    (CandleEngineSt.new.update F.nan (F.fin (1/10)) 1 100000).1 = CandleEngineSt.new ∧
    (CandleEngineSt.new.update (F.fin (1/2)) (F.fin (1/10)) 1 100000).2 = true := by
  have h1 := candle_engine_validity_gate CandleEngineSt.new F.nan (F.fin (1/10)) 1 100000
  have h2 := candle_engine_validity_gate CandleEngineSt.new (F.fin (1/2)) (F.fin (1/10)) 1 100000
  have hfalse : (CandleEngineSt.new.update F.nan (F.fin (1/10)) 1 100000).2 = false :=
    h1.1.mpr (Or.inl rfl)
  refine ⟨hfalse, h1.2.1 hfalse, ?_⟩
  cases hb : (CandleEngineSt.new.update (F.fin (1/2)) (F.fin (1/10)) 1 100000).2
  · exfalso
    have hx := h2.1.mp hb
    simp only [F.isFinite, F.le, F.lt, decide_eq_true_eq] at hx
    norm_num at hx
  · rfl

/-! ## Claim C3: late ticks -/

/-- Claim C3 counterexample: a late tick in snapshot volume mode emits no
candle and leaves the candle state unchanged, but it does mutate the
aggregator, advancing the `last_snapshot_vol` baseline. -/
theorem late_tick_mutates_snapshot_baseline :
    (let a1 := (CandleAggregator.new 5 100 VolumeMode.snapshot).update 1 10 10
     let a2 := a1.update 2 20 3
     (∃ c, a1.current = some c ∧ bucketStart a1.interval_seconds 3 < c.start_time) ∧
       a2.current = a1.current ∧ a2.buffer = a1.buffer ∧
       a1.last_snapshot_vol = some 10 ∧ a2.last_snapshot_vol = some 20 ∧ a2 ≠ a1) := by
  refine ⟨⟨⟨10, 1, 1, 1, 1, 0⟩, ?_, ?_⟩, ?_, ?_, ?_, ?_, ?_⟩ <;>
    norm_num [CandleAggregator.update, CandleAggregator.new, bucketStart]

/-- Claim C3 (amended): a tick whose bucket is strictly earlier than the
open candle closes nothing and leaves every field unchanged, except that in
snapshot volume mode `last_snapshot_vol` becomes the tick volume. -/
theorem late_tick_discard (a : CandleAggregator) (price volume : ℚ) (t : ℕ) (c : Candle)
    (hc : a.current = some c) (hlate : bucketStart a.interval_seconds t < c.start_time) :
    (a.update price volume t).current = a.current ∧
    (a.update price volume t).buffer = a.buffer ∧
    (a.update price volume t).interval_seconds = a.interval_seconds ∧
    (a.update price volume t).max_len = a.max_len ∧
    (a.update price volume t).volume_mode = a.volume_mode ∧
    (a.update price volume t).last_snapshot_vol =
      (match a.volume_mode with
       | VolumeMode.delta => a.last_snapshot_vol
       | VolumeMode.snapshot => some volume) := by
  have hne : ¬ bucketStart a.interval_seconds t = c.start_time := Nat.ne_of_lt hlate
  rcases hm : a.volume_mode with _ | _ <;>
    simp [CandleAggregator.update, hm, hc, hne, hlate]

/-- Witness for the amended claim C3. -/
theorem late_tick_discard_witness :
    (let a1 := (CandleAggregator.new 15 100 VolumeMode.delta).update 3 7 60
     (a1.update 4 9 2).current = a1.current ∧ (a1.update 4 9 2).buffer = a1.buffer ∧
       (a1.update 4 9 2).last_snapshot_vol = a1.last_snapshot_vol) := by
  have h := late_tick_discard ((CandleAggregator.new 15 100 VolumeMode.delta).update 3 7 60)
    4 9 2 ⟨60, 3, 3, 3, 3, 7⟩ (by decide) (by decide)
  exact ⟨h.1, h.2.1, h.2.2.2.2.2⟩

/-! ## Claim C9: the broken book filter -/

/-- Claim C9: `trade_allowed` rejects the candidate trade whenever the sum
of the two asks deviates from one by more than a tenth, whatever the
snapshot, the time remaining and the contract age are. -/
theorem trade_allowed_rejects_broken_book (snapshot : MarketSnapshot)
    (time_remaining contract_age : ℤ) (yes_ask no_ask : ℚ)
    (h : 1/10 < |yes_ask + no_ask - 1|) :
    ∃ r, trade_allowed snapshot time_remaining contract_age yes_ask no_ask =
      Except.error r := by
  unfold trade_allowed
  split
  · split_ifs with h1 h2
    · exact ⟨FilterReason.wideSpread, rfl⟩
    · exact ⟨FilterReason.extremePrice, rfl⟩
    · exact ⟨FilterReason.brokenBook, rfl⟩
  · exact ⟨FilterReason.noLiquidity, rfl⟩

/-- Witness for claim C9: both asks at 0.99 are rejected even with a tight
book and good timing. -/
theorem trade_allowed_rejects_broken_book_witness :
    ∃ r, trade_allowed ⟨some (1/2), some (47/100), some (1/2), some (3/100), 500, 500⟩
      60 30 (99/100) (99/100) = Except.error r := by
  refine trade_allowed_rejects_broken_book _ 60 30 _ _ ?_
  rw [show (99:ℚ)/100 + 99/100 - 1 = 49/50 by norm_num,
    abs_of_nonneg (by norm_num : (0:ℚ) ≤ 49/50)]
  norm_num

/-! ## Claim C10: stale candles are ignored -/

/-- Claim C10: a candle whose start time is at most the recorded last candle
time is ignored: the state is unchanged and the current snapshot returned. -/
theorem indicator_engine_ignores_stale (e : IndicatorEngine) (candle : IndCandle)
    (last : ℕ) (hl : e.last_candle_time = some last) (hle : candle.start_time ≤ last) :
    e.update candle = (e, e.getState) := by
  unfold IndicatorEngine.update
  rw [hl]
  simp [hle]

/-- Witness for claim C10. -/
theorem indicator_engine_ignores_stale_witness :
    ({ IndicatorEngine.new with last_candle_time := some 60 } : IndicatorEngine).update
        ⟨60, F.fin 1⟩ =
      ({ IndicatorEngine.new with last_candle_time := some 60 },
        ({ IndicatorEngine.new with last_candle_time := some 60 } : IndicatorEngine).getState) :=
  indicator_engine_ignores_stale _ _ 60 rfl (le_refl 60)

/-! ## Claim C7: invalid closes -/

/-- Claim C7 counterexample: a NaN close on a newer candle is ignored by the
indicators, but the engine state is not left unchanged: the last candle time
watermark advances. -/
theorem indicator_bad_close_counterexample :
    F.nan.isNan = true ∧
    (({ IndicatorEngine.new with last_candle_time := some 60 } : IndicatorEngine).update
        ⟨120, F.nan⟩).1.last_candle_time = some 120 ∧
    ({ IndicatorEngine.new with last_candle_time := some 60 } :
        IndicatorEngine).last_candle_time = some 60 ∧
    (({ IndicatorEngine.new with last_candle_time := some 60 } : IndicatorEngine).update
        ⟨120, F.nan⟩).1 ≠ { IndicatorEngine.new with last_candle_time := some 60 } := by
  refine ⟨rfl, rfl, rfl, ?_⟩
  intro heq
  have h2 := congrArg IndicatorEngine.last_candle_time heq
  have h3 : (some 120 : Option ℕ) = some 60 := h2
  exact absurd h3 (by decide)

/-- Claim C7 (amended): for a candle with NaN, infinite or tiny close and a
start time newer than the recorded one, the indicator state is untouched and
the previous snapshot is returned; only the last candle time watermark
advances (and a gap above 120 seconds first resets the whole engine, per the
staleness rule). -/
theorem indicator_engine_bad_close (e : IndicatorEngine) (candle : IndCandle) (last : ℕ)
    (hl : e.last_candle_time = some last) (hnew : last < candle.start_time)
    (hbad : (candle.close.isNan || candle.close.isInfinite ||
      F.le candle.close (F.fin (1/10000))) = true) :
    (candle.start_time - last ≤ 120 →
      e.update candle = ({ e with last_candle_time := some candle.start_time },
        e.getState)) ∧
    (120 < candle.start_time - last →
      e.update candle = ({ IndicatorEngine.new with
        last_candle_time := some candle.start_time }, IndicatorEngine.new.getState)) := by
  have hns : ¬ candle.start_time ≤ last := not_le.mpr hnew
  constructor
  · intro hgap
    have hg2 : ¬ (candle.start_time - last > 120) := by omega
    simp only [IndicatorEngine.update, hl, if_neg hns, if_neg hg2,
      IndicatorEngine.updateCore, if_pos hbad]
    rfl
  · intro hgap
    have hg2 : candle.start_time - last > 120 := hgap
    simp only [IndicatorEngine.update, hl, if_neg hns, if_pos hg2,
      IndicatorEngine.updateCore, IndicatorEngine.reset, if_pos hbad]
    rfl

/-- Witness for the amended claim C7. -/
theorem indicator_engine_bad_close_witness :
    ({ IndicatorEngine.new with last_candle_time := some 60 } : IndicatorEngine).update
        ⟨120, F.nan⟩ =
      ({ IndicatorEngine.new with last_candle_time := some 120 },
        ({ IndicatorEngine.new with last_candle_time := some 60 } :
          IndicatorEngine).getState) := by
  have h := indicator_engine_bad_close
    { IndicatorEngine.new with last_candle_time := some 60 } ⟨120, F.nan⟩ 60 rfl
    (by norm_num) rfl
  exact h.1 (by norm_num)

/-! ## Claim C4: settlement on rollover -/

/-- Claim C4: when the market rolls over with an open shadow position, the
position settles at 1 when the held side has last bid above one half and at
0 otherwise, and the bankroll is credited with the stake plus the settlement
profit or loss against that settlement price. -/
theorem settlement_on_rollover (shadow : ShadowPosition) (last_yes_bid last_no_bid : ℚ)
    (side : TokenSide) (hside : shadow.token_side = some side)
    (hentry : 1/10000 ≤ shadow.entry_price) :
    (settleOnRollover shadow last_yes_bid last_no_bid).bankroll_usd =
      shadow.bankroll_usd + shadow.position_size_usd +
        ((if (match side with
              | TokenSide.yes => last_yes_bid
              | TokenSide.no => last_no_bid) > 1/2 then (1 : ℚ) else 0) -
            shadow.entry_price) / shadow.entry_price * shadow.position_size_usd := by
  have hact : shadow.is_active = true := by
    simp [ShadowPosition.is_active, hside]
  have hcond : ¬ (shadow.is_active = false ∨ shadow.entry_price < 1/10000) := by
    rw [hact]
    simp only [not_or, not_lt]
    constructor
    · simp
    · simpa using hentry
  have hpn : ∀ x : ℚ, shadow.pnl x = (x - shadow.entry_price) / shadow.entry_price := by
    intro x
    unfold ShadowPosition.pnl
    rw [if_neg hcond]
  unfold settleOnRollover
  rw [hact]
  cases side <;> simp only [hside, hpn, if_pos rfl, if_true]

/-- Witness for claim C4: a YES position entered at 0.45 settles at 1 when
the last YES bid is 0.6. -/
theorem settlement_on_rollover_witness :
    (settleOnRollover
      { ShadowPosition.default with
          token_side := some TokenSide.yes
          entry_price := 9/20
          size := 1
          position_size_usd := 1
          bankroll_usd := 3 }
      (3/5) 0).bankroll_usd = 47/9 := by
  have h := settlement_on_rollover
    { ShadowPosition.default with
        token_side := some TokenSide.yes
        entry_price := 9/20
        size := 1
        position_size_usd := 1
        bankroll_usd := 3 }
    (3/5) 0 TokenSide.yes rfl (by norm_num)
  rw [h]
  norm_num

/-! ## Claim C8: RSI bounds -/

/-- Nonnegativity of the stored average gain and loss. -/
def Rsi.avgsOk (r : Rsi) : Prop :=
  (∀ q, r.avg_gain = some q → 0 ≤ q) ∧ (∀ q, r.avg_loss = some q → 0 ≤ q)


theorem calcRsi_avg_fields (r : Rsi) :
    (r.calcRsi).avg_gain = r.avg_gain ∧ (r.calcRsi).avg_loss = r.avg_loss := by
  unfold Rsi.calcRsi
  split
  · split_ifs <;> exact ⟨rfl, rfl⟩
  · exact ⟨rfl, rfl⟩

theorem calcRsi_avgsOk (r : Rsi) (h : r.avgsOk) : (r.calcRsi).avgsOk := by
  obtain ⟨hfg, hfl⟩ := calcRsi_avg_fields r
  constructor
  · intro q hq
    rw [hfg] at hq
    exact h.1 q hq
  · intro q hq
    rw [hfl] at hq
    exact h.2 q hq

theorem calcRsi_value (r : Rsi) (h : r.avgsOk) :
    ∃ q, (r.calcRsi).value = some q ∧ 0 ≤ q ∧ q ≤ 100 := by
  unfold Rsi.calcRsi
  rcases hg : r.avg_gain with _ | ag
  · exact ⟨50, by simp [hg], by norm_num, by norm_num⟩
  · rcases hl : r.avg_loss with _ | al
    · exact ⟨50, by simp [hg, hl], by norm_num, by norm_num⟩
    · have hag : 0 ≤ ag := h.1 ag hg
      have hal : 0 ≤ al := h.2 al hl
      by_cases hg0 : ag = 0 <;> by_cases hl0 : al = 0
      · exact ⟨50, by simp [hg, hl, hg0, hl0], by norm_num, by norm_num⟩
      · exact ⟨0, by simp [hg, hl, hg0, hl0], by norm_num, by norm_num⟩
      · exact ⟨100, by simp [hg, hl, hg0, hl0], by norm_num, by norm_num⟩
      · have hag' : 0 < ag := lt_of_le_of_ne hag (Ne.symm hg0)
        have hal' : 0 < al := lt_of_le_of_ne hal (Ne.symm hl0)
        have hrs : 0 < ag / al := div_pos hag' hal'
        have h1 : (1 : ℚ) < 1 + ag / al := by linarith
        have hd : 0 < 100 / (1 + ag / al) := by positivity
        have hd2 : 100 / (1 + ag / al) ≤ 100 :=
          div_le_self (by norm_num) (le_of_lt h1)
        exact ⟨100 - 100 / (1 + ag / al), by simp [hg, hl, hg0, hl0], by linarith,
          by linarith⟩

theorem preCalc_avgsOk (r : Rsi) (c : ℚ) (h : r.avgsOk) : (r.preCalc c).avgsOk := by
  unfold Rsi.preCalc
  rcases hlc : r.last_close with _ | prev <;> simp only [hlc]
  · refine ⟨?_, ?_⟩ <;> intro q hq <;> simp at hq <;> simp [← hq]
  · rcases hag : r.avg_gain with _ | ag <;> rcases hal : r.avg_loss with _ | al <;>
      simp only [hag, hal]
    · refine ⟨?_, ?_⟩ <;> intro q hq <;> simp [hag, hal] at hq
    · refine ⟨?_, ?_⟩ <;> intro q hq <;> simp [hag, hal] at hq
      rw [← hq]
      exact h.2 al hal
    · refine ⟨?_, ?_⟩ <;> intro q hq <;> simp [hag, hal] at hq
      rw [← hq]
      exact h.1 ag hag
    · have hagx : 0 ≤ ag := h.1 ag hag
      have halx : 0 ≤ al := h.2 al hal
      have hgain0 : (0 : ℚ) ≤ if c - prev > 0 then c - prev else 0 := by
        split_ifs with hx
        · exact le_of_lt hx
        · exact le_refl 0
      have hloss0 : (0 : ℚ) ≤ if c - prev < 0 then -(c - prev) else 0 := by
        split_ifs with hx
        · linarith
        · exact le_refl 0
      have hw1 : (1 : ℚ) ≤ ((r.warmup_count + 1 : ℕ) : ℚ) := by
        exact_mod_cast Nat.succ_le_succ (Nat.zero_le _)
      have hsma : ∀ x g : ℚ, 0 ≤ x → 0 ≤ g →
          0 ≤ (x * (((r.warmup_count + 1 : ℕ) : ℚ) - 1) + g) /
            ((r.warmup_count + 1 : ℕ) : ℚ) := by
        intro x g hx hgg
        apply div_nonneg _ (by positivity)
        have : (0 : ℚ) ≤ ((r.warmup_count + 1 : ℕ) : ℚ) - 1 := by linarith
        positivity
      have hwil : ∀ x g : ℚ, 0 ≤ x → 0 ≤ g →
          0 ≤ (x * ((r.period : ℚ) - 1) + g) / (r.period : ℚ) := by
        intro x g hx hgg
        rcases Nat.eq_zero_or_pos r.period with hp | hp
        · rw [hp]
          simp
        · apply div_nonneg _ (by positivity)
          have h2 : (1 : ℚ) ≤ (r.period : ℚ) := by exact_mod_cast hp
          have h3 : (0 : ℚ) ≤ (r.period : ℚ) - 1 := by linarith
          positivity
      by_cases hwp : r.warmup_count + 1 ≤ r.period
      · rw [if_pos hwp]
        refine ⟨?_, ?_⟩ <;> intro q hq
        · have hq2 : some ((ag * (((r.warmup_count + 1 : ℕ) : ℚ) - 1) +
              (if c - prev > 0 then c - prev else 0)) / ((r.warmup_count + 1 : ℕ) : ℚ)) =
              some q := hq
          injection hq2 with hq3
          rw [← hq3]
          exact hsma ag _ hagx hgain0
        · have hq2 : some ((al * (((r.warmup_count + 1 : ℕ) : ℚ) - 1) +
              (if c - prev < 0 then -(c - prev) else 0)) / ((r.warmup_count + 1 : ℕ) : ℚ)) =
              some q := hq
          injection hq2 with hq3
          rw [← hq3]
          exact hsma al _ halx hloss0
      · rw [if_neg hwp]
        refine ⟨?_, ?_⟩ <;> intro q hq
        · have hq2 : some ((ag * ((r.period : ℚ) - 1) +
              (if c - prev > 0 then c - prev else 0)) / (r.period : ℚ)) = some q := hq
          injection hq2 with hq3
          rw [← hq3]
          exact hwil ag _ hagx hgain0
        · have hq2 : some ((al * ((r.period : ℚ) - 1) +
              (if c - prev < 0 then -(c - prev) else 0)) / (r.period : ℚ)) = some q := hq
          injection hq2 with hq3
          rw [← hq3]
          exact hwil al _ halx hloss0

theorem rsi_update_good (r : Rsi) (c : ℚ) (h : r.avgsOk) :
    (r.update c).avgsOk ∧ ∃ q, (r.update c).value = some q ∧ 0 ≤ q ∧ q ≤ 100 := by
  unfold Rsi.update
  exact ⟨calcRsi_avgsOk _ (preCalc_avgsOk r c h), calcRsi_value _ (preCalc_avgsOk r c h)⟩

/-- Claim C8: `Rsi::update` outputs exactly 50 on the first update, and
every output over any sequence of subsequent updates lies in [0, 100]. -/
theorem rsi_first_update_and_bounds (period : ℕ) (hp : 1 ≤ period) (c : ℚ)
    (closes : List ℚ) :
    ((Rsi.new period).update c).value = some 50 ∧
    ∀ v ∈ (Rsi.new period).outputs closes, ∃ q, v = some q ∧ 0 ≤ q ∧ q ≤ 100 := by
  constructor
  · simp [Rsi.update, Rsi.preCalc, Rsi.new, Rsi.calcRsi]
  · have hnewOk : (Rsi.new period).avgsOk := by
      constructor <;> intro q hq <;> simp [Rsi.new] at hq
    have hgen : ∀ (cs : List ℚ) (r : Rsi), r.avgsOk →
        ∀ v ∈ r.outputs cs, ∃ q, v = some q ∧ 0 ≤ q ∧ q ≤ 100 := by
      intro cs
      induction cs with
      | nil =>
        intro r hr v hv
        simp [Rsi.outputs] at hv
      | cons c0 cs ih =>
        intro r hr v hv
        obtain ⟨hok, hq⟩ := rsi_update_good r c0 hr
        simp only [Rsi.outputs, List.mem_cons] at hv
        rcases hv with hv | hv
        · rw [hv]
          exact hq
        · exact ih (r.update c0) hok v hv
    exact hgen closes (Rsi.new period) hnewOk

/-- Witness for claim C8, at period 14 with two updates. -/
theorem rsi_first_update_and_bounds_witness :
    ((Rsi.new 14).update (1/2)).value = some 50 ∧
    ∀ v ∈ (Rsi.new 14).outputs [1/2, 3/5], ∃ q, v = some q ∧ 0 ≤ q ∧ q ≤ 100 :=
  rsi_first_update_and_bounds 14 (by norm_num) (1/2) [1/2, 3/5]

/-! ## Claim C5: the directional lock -/

theorem reset_yes_mono (s : ShadowPosition) (t : ℕ) (h : s.yes_blocked = true) :
    (s.reset t).yes_blocked = true := by
  unfold ShadowPosition.reset
  split_ifs with h1
  · rcases hts : s.token_side with _ | side
    · simp [hts, h]
    · cases side <;> simp [hts, h]
  · simp [h]

theorem handle_preserves_yes_lock (entry : EntrySignal) (exit : BotExitSignal)
    (snap : DualSnapshot) (s : ShadowPosition) (time_remaining : ℤ) (timestamp : ℕ)
    (h : s.yes_blocked = true) :
    (handleShadowSignals entry exit snap s time_remaining timestamp).yes_blocked = true := by
  unfold handleShadowSignals
  dsimp only
  repeat' split
  all_goals first
    | exact h
    | exact reset_yes_mono _ _ h

/-- Claim C5: after a Long/YES trade closes at a loss the YES direction is
locked: the lock flag is set by the close, any later Long entry signal
leaves the shadow state untouched while the lock holds, no handler step
clears the lock, only the rollover full reset clears it, and Short entries
behave identically whatever the value of the YES lock flag is. -/
theorem directional_lock (s : ShadowPosition) (timestamp : ℕ) (exit : BotExitSignal)
    (snap : DualSnapshot) (time_remaining : ℤ) :
    (s.token_side = some TokenSide.yes → s.position_realized_pnl < 0 →
      (s.reset timestamp).yes_blocked = true) ∧
    (s.yes_blocked = true → s.is_active = false →
      handleShadowSignals EntrySignal.long exit snap s time_remaining timestamp = s) ∧
    (s.yes_blocked = true → ∀ entry,
      (handleShadowSignals entry exit snap s time_remaining timestamp).yes_blocked
        = true) ∧
    s.full_reset.yes_blocked = false ∧
    (∀ (b : Bool) (price : ℚ), s.is_active = false → s.no_blocked = false →
      ¬ (time_remaining < 30 ∨ time_remaining > 280) →
      ¬ (timestamp - s.last_exit_timestamp < 15) →
      ¬ (s.bankroll_usd < 1) →
      snap.no.best_ask = some price → 1/10000 < price →
      handleShadowSignals EntrySignal.short exit snap { s with yes_blocked := b }
          time_remaining timestamp =
        { s with yes_blocked := b, token_side := some TokenSide.no,
                 active_entry := some EntrySignal.short, entry_price := price, size := 1,
                 position_realized_pnl := 0, entry_timestamp := timestamp,
                 position_size_usd := 1, bankroll_usd := s.bankroll_usd - 1,
                 position_realized_usd := 0 }) := by
  refine ⟨?_, ?_, ?_, ?_, ?_⟩
  · intro hside hloss
    unfold ShadowPosition.reset
    rw [if_pos hloss, hside]
  · intro hyb hact
    unfold handleShadowSignals
    rw [if_pos (⟨by decide, hact⟩ :
      (EntrySignal.long ≠ EntrySignal.none ∧ s.is_active = false))]
    by_cases h1 : time_remaining < 30 ∨ time_remaining > 280
    · rw [if_pos h1]
    · rw [if_neg h1]
      by_cases h2 : timestamp - s.last_exit_timestamp < 15
      · rw [if_pos h2]
      · rw [if_neg h2]
        rw [if_pos (⟨rfl, hyb⟩ :
          (EntrySignal.long = EntrySignal.long ∧ s.yes_blocked = true))]
  · intro hyb entry
    exact handle_preserves_yes_lock entry exit snap s time_remaining timestamp hyb
  · unfold ShadowPosition.full_reset
    rfl
  · intro b price hact hnb htime hcool hbank hna hpr
    unfold handleShadowSignals
    rw [if_pos (⟨by decide, hact⟩ : (EntrySignal.short ≠ EntrySignal.none ∧
      ({ s with yes_blocked := b } : ShadowPosition).is_active = false))]
    rw [if_neg htime]
    rw [if_neg (show ¬ (timestamp -
      ({ s with yes_blocked := b } : ShadowPosition).last_exit_timestamp < 15) from hcool)]
    rw [if_neg (show ¬ (EntrySignal.short = EntrySignal.long ∧
      ({ s with yes_blocked := b } : ShadowPosition).yes_blocked = true) from by simp)]
    rw [if_neg (show ¬ (EntrySignal.short = EntrySignal.short ∧
      ({ s with yes_blocked := b } : ShadowPosition).no_blocked = true) from by
        simp [hnb])]
    rw [if_neg (show ¬ (({ s with yes_blocked := b } :
      ShadowPosition).bankroll_usd < 1) from hbank)]
    simp only [best_ask_price, hna]
    rw [if_pos hpr]

/-- Witness for claim C5. -/
theorem directional_lock_witness :
    (({ ShadowPosition.default with token_side := some TokenSide.yes, position_realized_pnl := -1 } : ShadowPosition).reset 100).yes_blocked = true ∧
    handleShadowSignals EntrySignal.long BotExitSignal.noExit
        ⟨⟨none, none, none, none, 0, 0⟩, ⟨none, none, none, none, 0, 0⟩⟩
        { ShadowPosition.default with yes_blocked := true } 100 100 =
      { ShadowPosition.default with yes_blocked := true } ∧
    ({ ShadowPosition.default with yes_blocked := true } :
      ShadowPosition).full_reset.yes_blocked = false := by
  refine ⟨?_, ?_, ?_⟩
  · exact (directional_lock
      { ShadowPosition.default with token_side := some TokenSide.yes, position_realized_pnl := -1 }
      100 BotExitSignal.noExit
      ⟨⟨none, none, none, none, 0, 0⟩, ⟨none, none, none, none, 0, 0⟩⟩ 100).1
      rfl (by norm_num)
  · exact (directional_lock { ShadowPosition.default with yes_blocked := true } 100
      BotExitSignal.noExit
      ⟨⟨none, none, none, none, 0, 0⟩, ⟨none, none, none, none, 0, 0⟩⟩ 100).2.1 rfl rfl
  · exact (directional_lock { ShadowPosition.default with yes_blocked := true } 100
      BotExitSignal.noExit
      ⟨⟨none, none, none, none, 0, 0⟩, ⟨none, none, none, none, 0, 0⟩⟩ 100).2.2.2.1

/-! ## Claim C6: entry conditions of the signal engine -/

theorem check_entry_long_inv (e : SignalEngine) (bias : Bias) (acc : Bool)
    (five : IndicatorState) (price : ℚ)
    (h : e.check_entry bias acc five price = EntrySignal.long) :
    3 ≤ e.recent_5s_closes.length ∧
    ∃ slope, five.momentum_slope = some slope ∧ 1/1000 < slope ∧
      e.last_5s_high < price := by
  unfold SignalEngine.check_entry at h
  split_ifs at h with hg
  push_neg at hg
  have hlen : 3 ≤ e.recent_5s_closes.length := hg.2.2.2
  rcases hms : five.momentum_slope with _ | slope
  · rw [hms] at h
    simp at h
  · rw [hms] at h
    cases bias
    · dsimp only at h
      split_ifs at h with hc
      exact ⟨hlen, slope, rfl, hc.1, hc.2⟩
    · dsimp only at h
      split_ifs at h with hc
    · exact absurd hg.2.2.1 (by simp)

theorem check_entry_short_inv (e : SignalEngine) (bias : Bias) (acc : Bool)
    (five : IndicatorState) (price : ℚ)
    (h : e.check_entry bias acc five price = EntrySignal.short) :
    3 ≤ e.recent_5s_closes.length ∧
    ∃ slope, five.momentum_slope = some slope ∧ slope < -(1/1000) ∧
      price < e.last_5s_low := by
  unfold SignalEngine.check_entry at h
  split_ifs at h with hg
  push_neg at hg
  have hlen : 3 ≤ e.recent_5s_closes.length := hg.2.2.2
  rcases hms : five.momentum_slope with _ | slope
  · rw [hms] at h
    simp at h
  · rw [hms] at h
    cases bias
    · dsimp only at h
      split_ifs at h with hc
    · dsimp only at h
      split_ifs at h with hc
      exact ⟨hlen, slope, rfl, hc.1, hc.2⟩
    · exact absurd hg.2.2.1 (by simp)

theorem check_entry_small_window (e : SignalEngine) (bias : Bias) (acc : Bool)
    (five : IndicatorState) (price : ℚ) (h : e.recent_5s_closes.length < 3) :
    e.check_entry bias acc five price = EntrySignal.none := by
  unfold SignalEngine.check_entry
  rw [if_pos (Or.inr (Or.inr (Or.inr h)))]

/-- Claim C6 (amended): the signal engine emits a Long entry only when the
fast slope exceeds 0.001 and the reference price strictly exceeds the
highest of the at most 3 recorded prior reference prices, Short
symmetrically below -0.001 and the window low, and it emits no entry when
the window holds fewer than 3 samples.  (The window is computed before the
current price is inserted.) -/
theorem signal_entry_characterization (e : SignalEngine)
    (one_min fifteen_sec five_sec : IndicatorState) (current_price : ℚ) :
    ((e.update one_min fifteen_sec five_sec current_price).2.entry = EntrySignal.long →
      3 ≤ e.recent_5s_closes.length ∧
      ∃ slope, five_sec.momentum_slope = some slope ∧ 1/1000 < slope ∧
        e.recent_5s_closes.foldl max f64Min < current_price) ∧
    ((e.update one_min fifteen_sec five_sec current_price).2.entry = EntrySignal.short →
      3 ≤ e.recent_5s_closes.length ∧
      ∃ slope, five_sec.momentum_slope = some slope ∧ slope < -(1/1000) ∧
        current_price < e.recent_5s_closes.foldl min f64Max) ∧
    (e.recent_5s_closes.length < 3 →
      (e.update one_min fifteen_sec five_sec current_price).2.entry = EntrySignal.none) := by
  have hent : (e.update one_min fifteen_sec five_sec current_price).2.entry =
      SignalEngine.check_entry
        { e with previous_bias := determineBias one_min,
                 last_5s_high := e.recent_5s_closes.foldl max f64Min,
                 last_5s_low := e.recent_5s_closes.foldl min f64Max }
        (determineBias one_min) (checkAcceleration (determineBias one_min) fifteen_sec)
        five_sec current_price := rfl
  refine ⟨?_, ?_, ?_⟩
  · intro h
    rw [hent] at h
    exact check_entry_long_inv _ _ _ _ _ h
  · intro h
    rw [hent] at h
    exact check_entry_short_inv _ _ _ _ _ h
  · intro h
    rw [hent]
    exact check_entry_small_window _ _ _ _ _ h

/-- Claim C6 counterexample: with a bullish 1 minute state, accelerating 15
second state and a fast slope of 0.0015, the engine emits a Long entry on a
breakout above a window of exactly 3 prior reference prices, although
0.0015 does not exceed 0.002 and the window never holds 5 samples. -/
theorem signal_entry_threshold_counterexample :
    (let one_m : IndicatorState := ⟨some (3/5), some (11/20), some 58, some (1/100)⟩
     let fif : IndicatorState := ⟨some (31/50), some (3/5), some 65, some (1/50)⟩
     let five : IndicatorState := ⟨some (63/100), some (61/100), some 68, some (3/2000)⟩
     let e1 := (SignalEngine.new.update one_m fif five (59/100)).1
     let e2 := (e1.update one_m fif five (3/5)).1
     let e3 := (e2.update one_m fif five (61/100)).1
     (e3.update one_m fif five (13/20)).2.entry = EntrySignal.long ∧
       five.momentum_slope = some (3/2000) ∧ ¬ ((3/2000 : ℚ) > 1/500) ∧
       e3.recent_5s_closes.length = 3 ∧ ¬ (5 ≤ e3.recent_5s_closes.length)) := by
  dsimp only
  refine ⟨?_, rfl, by norm_num, ?_, ?_⟩
  · norm_num [SignalEngine.update, SignalEngine.new, SignalEngine.check_entry,
      SignalEngine.check_exit, determineBias, checkAcceleration, f64Min, f64Max]
    intro hcon
    exact absurd hcon (by decide)
  · norm_num [SignalEngine.update, SignalEngine.new, SignalEngine.check_entry,
      SignalEngine.check_exit, determineBias, checkAcceleration, f64Min, f64Max]
  · norm_num [SignalEngine.update, SignalEngine.new, SignalEngine.check_entry,
      SignalEngine.check_exit, determineBias, checkAcceleration, f64Min, f64Max]

/-- Witness for the amended claim C6: the characterization applied to a
concrete breakout state. -/
theorem signal_entry_characterization_witness :
    3 ≤ ({ SignalEngine.new with recent_5s_closes := [59/100, 3/5, 61/100] } :
      SignalEngine).recent_5s_closes.length ∧
    ∃ slope, (⟨some (63/100), some (61/100), some 68, some (3/2000)⟩ :
        IndicatorState).momentum_slope = some slope ∧ 1/1000 < slope ∧
      ({ SignalEngine.new with recent_5s_closes := [59/100, 3/5, 61/100] } :
        SignalEngine).recent_5s_closes.foldl max f64Min < 13/20 := by
  refine (signal_entry_characterization
    { SignalEngine.new with recent_5s_closes := [59/100, 3/5, 61/100] }
    ⟨some (3/5), some (11/20), some 58, some (1/100)⟩
    ⟨some (31/50), some (3/5), some 65, some (1/50)⟩
    ⟨some (63/100), some (61/100), some 68, some (3/2000)⟩ (13/20)).1 ?_
  norm_num [SignalEngine.update, SignalEngine.new, SignalEngine.check_entry,
    SignalEngine.check_exit, determineBias, checkAcceleration, f64Min, f64Max]
  intro hcon
  exact absurd hcon (by decide)
